import Mathlib

/-!
Shallow embedding of the level-3 BLAS symmetric matrix-multiply routines
`csymm` (complex) and `ssymm` (real) from `src/src/lib/l3/complex/csymm.ts`,
over exact rational scalars.  Matrices are column-major buffers modelled as
total functions from integer offsets to rationals; the complex variant keeps
two parallel buffers.  The source's left/lower complex branch contains a loop
whose condition (`k >= m` with `k` increasing) never becomes false once it is
true, so `csymm` is given a fuel parameter and returns `none` when the fuel
runs out; every other path ignores the fuel.
-/

/-- A complex scalar as a pair of rational parts (the code stores real and
imaginary parts separately). -/
structure Cpx where
  re : ℚ
  im : ℚ
  deriving DecidableEq

/-- Errors thrown by the routines: a missing imaginary buffer (named as in the
source, e.g. "a.i"), or an invalid argument carrying the routine name and the
1-based position of the first offending parameter. -/
inductive BlasErr where
  | missingIm : String → BlasErr
  | wrongArg : String → ℤ → BlasErr
  deriving DecidableEq

/-- Modelled from the spec: the `f_func` Matrix view (its source is not under
`src/`) — a dense column-major buffer plus a leading dimension; a complex
matrix may be presented without an imaginary buffer, in which case `i` is
`none`. -/
structure CMat where
  r : ℤ → ℚ
  i : Option (ℤ → ℚ)
  ld : ℤ

/-- Modelled from the spec: the real Matrix view — a dense column-major buffer
plus a leading dimension. -/
structure RMat where
  r : ℤ → ℚ
  ld : ℤ

/-- A complex matrix whose imaginary buffer is known to be present (the shape
the engine works on after the missing-imaginary checks pass). -/
structure CDat where
  r : ℤ → ℚ
  i : ℤ → ℚ
  ld : ℤ

/-- Modelled from the spec: `Matrix.colOfEx` — element (row i, col j),
1-indexed, lives at buffer offset `(j-1)*leadingDimension + i`, so the offset
contributed by column `j` is `(j-1)*leadingDimension`. -/
def CDat.colOfEx (mat : CDat) (j : ℤ) : ℤ := (j - 1) * mat.ld

/-- Modelled from the spec: `Matrix.colOfEx` for the real view. -/
def RMat.colOfEx (mat : RMat) (j : ℤ) : ℤ := (j - 1) * mat.ld

/-- Column offset of a possibly-imaginary-less complex matrix view. -/
def CMat.colOfEx (mat : CMat) (j : ℤ) : ℤ := (j - 1) * mat.ld

/-- Pointwise update of a buffer at one offset. -/
def updFn (f : ℤ → ℚ) (idx : ℤ) (v : ℚ) : ℤ → ℚ :=
  fun t => if t = idx then v else f t

/-- Modelled from the spec: `Matrix.setCol(col, rowLo, rowHi, v)` writes `v`
to rows `rowLo..rowHi` of column `col`, both parts for a complex matrix. -/
def CDat.setCol (c : CDat) (j lo hi : ℤ) (v : ℚ) : CDat :=
  { c with
    r := fun t => if c.colOfEx j + lo ≤ t ∧ t ≤ c.colOfEx j + hi then v else c.r t,
    i := fun t => if c.colOfEx j + lo ≤ t ∧ t ≤ c.colOfEx j + hi then v else c.i t }

/-- Modelled from the spec: `Matrix.setCol` for the real view. -/
def RMat.setCol (c : RMat) (j lo hi : ℤ) (v : ℚ) : RMat :=
  { c with
    r := fun t => if c.colOfEx j + lo ≤ t ∧ t ≤ c.colOfEx j + hi then v else c.r t }

/-- Modelled from the spec: selector normalization lowercases the side and
triangle tokens before validation. -/
def lowerChar (ch : Char) : Char := ch.toLower

/-- Ascending counted loop: `iterUp body cnt j s` runs `body` at
`j, j+1, ...` for `cnt` iterations, threading the state. -/
def iterUp {σ : Type} (body : ℤ → σ → σ) : Nat → ℤ → σ → σ
  | 0, _, s => s
  | cnt + 1, j, s => iterUp body cnt (j + 1) (body j s)

/-- `for (x = lo; x <= hi; x++)` over a pure state. -/
def forUp {σ : Type} (lo hi : ℤ) (body : ℤ → σ → σ) (s : σ) : σ :=
  iterUp body (hi + 1 - lo).toNat lo s

/-- Descending counted loop. -/
def iterDown {σ : Type} (body : ℤ → σ → σ) : Nat → ℤ → σ → σ
  | 0, _, s => s
  | cnt + 1, j, s => iterDown body cnt (j - 1) (body j s)

/-- `for (x = hi; x >= lo; x--)` over a pure state. -/
def forDown {σ : Type} (hi lo : ℤ) (body : ℤ → σ → σ) (s : σ) : σ :=
  iterDown body (hi + 1 - lo).toNat hi s

/-- Ascending counted loop whose body may diverge (signalled by `none`). -/
def iterUpO {σ : Type} (body : ℤ → σ → Option σ) : Nat → ℤ → σ → Option σ
  | 0, _, s => some s
  | cnt + 1, j, s =>
    match body j s with
    | none => none
    | some s2 => iterUpO body cnt (j + 1) s2

/-- `for (x = lo; x <= hi; x++)` with a possibly diverging body. -/
def forUpO {σ : Type} (lo hi : ℤ) (body : ℤ → σ → Option σ) (s : σ) : Option σ :=
  iterUpO body (hi + 1 - lo).toNat lo s

/-- Descending counted loop whose body may diverge. -/
def iterDownO {σ : Type} (body : ℤ → σ → Option σ) : Nat → ℤ → σ → Option σ
  | 0, _, s => some s
  | cnt + 1, j, s =>
    match body j s with
    | none => none
    | some s2 => iterDownO body cnt (j - 1) s2

/-- `for (x = hi; x >= lo; x--)` with a possibly diverging body. -/
def forDownO {σ : Type} (hi lo : ℤ) (body : ℤ → σ → Option σ) (s : σ) : Option σ :=
  iterDownO body (hi + 1 - lo).toNat hi s

/-- The source loop `for (k = i+1; k >= m; k++) body`: while `m ≤ k` the body
runs and `k` increases, so the loop can only stop if it starts with `k < m`.
`none` means the fuel ran out while the condition still held. -/
def iterBad {σ : Type} (m : ℤ) (body : ℤ → σ → σ) : Nat → ℤ → σ → Option σ
  | 0, k, s => if m ≤ k then none else some s
  | fuel + 1, k, s => if m ≤ k then iterBad m body fuel (k + 1) (body k s) else some s

/-- Engine branch of `csymm` for side = left, `upper` true (source lines
121-155): forms C := alpha*A*B + beta*C using A's upper triangle. -/
def csymmLU (al be : Cpx) (betaIsZero : Bool) (a b : CDat) (m n : ℤ)
    (c0 : CDat) : CDat :=
  forUp 1 n (fun j c1 =>
    let coorCJ := c1.colOfEx j
    let coorBJ := b.colOfEx j
    forUp 1 m (fun i c2 =>
      let coorAI := a.colOfEx i
      let t1re := al.re * b.r (coorBJ + i) - al.im * b.i (coorBJ + i)
      let t1im := al.re * b.i (coorBJ + i) + al.im * b.r (coorBJ + i)
      let st := forUp 1 (i - 1) (fun k (p : CDat × ℚ × ℚ) =>
        let c3 := p.1
        let c4 : CDat := { c3 with
          r := updFn c3.r (coorCJ + k)
            (c3.r (coorCJ + k) + (t1re * a.r (coorAI + k) - t1im * a.i (coorAI + k))),
          i := updFn c3.i (coorCJ + k)
            (c3.i (coorCJ + k) + (t1re * a.i (coorAI + k) + t1im * a.r (coorAI + k))) }
        (c4,
         p.2.1 + (b.r (coorBJ + k) * a.r (coorAI + k) - b.i (coorBJ + k) * a.i (coorAI + k)),
         p.2.2 + (b.r (coorBJ + k) * a.i (coorAI + k) + b.i (coorBJ + k) * a.r (coorAI + k))))
        (c2, (0 : ℚ), (0 : ℚ))
      let c5 := st.1
      let re0 := (t1re * a.r (coorAI + i) - t1im * a.i (coorAI + i))
                 + (al.re * st.2.1 - al.im * st.2.2)
      let im0 := (t1re * a.i (coorAI + i) + t1im * a.r (coorAI + i))
                 + (al.re * st.2.2 + al.im * st.2.1)
      let re1 := if betaIsZero then re0
                 else re0 + (be.re * c5.r (coorCJ + i) - be.im * c5.i (coorCJ + i))
      let im1 := if betaIsZero then im0
                 else im0 + (be.re * c5.i (coorCJ + i) + be.im * c5.r (coorCJ + i))
      { c5 with r := updFn c5.r (coorCJ + i) re1, i := updFn c5.i (coorCJ + i) im1 }) c1)
    c0

/-- Body of the k-loop of `csymm`'s left/not-upper branch (source lines
168-175), including the source's `b.r * a.r` slip in the imaginary
accumulator. -/
def csymmLLk (a b : CDat) (coorAI coorBJ coorCJ : ℤ) (t1re t1im : ℚ) (k : ℤ)
    (p : CDat × ℚ × ℚ) : CDat × ℚ × ℚ :=
  let c3 := p.1
  let c4 : CDat := { c3 with
    r := updFn c3.r (coorCJ + k)
      (c3.r (coorCJ + k) + (t1re * a.r (coorAI + k) - t1im * a.i (coorAI + k))),
    i := updFn c3.i (coorCJ + k)
      (c3.i (coorCJ + k) + (t1re * a.i (coorAI + k) + t1im * a.r (coorAI + k))) }
  (c4,
   p.2.1 + (b.r (coorBJ + k) * a.r (coorAI + k) - b.i (coorBJ + k) * a.i (coorAI + k)),
   p.2.2 + (b.r (coorBJ + k) * a.i (coorAI + k) + b.r (coorBJ + k) * a.r (coorAI + k)))

/-- Engine branch of `csymm` for side = left, `upper` false (source lines
157-188).  The k-loop is the source's `for (k = i+1; k >= m; k++)`, hence the
fuel; the surrounding formulas keep the source's sign and operand slips. -/
def csymmLL (fuel : Nat) (al be : Cpx) (betaIsZero : Bool) (a b : CDat)
    (m n : ℤ) (c0 : CDat) : Option CDat :=
  forUpO 1 n (fun j cj =>
    let coorBJ := b.colOfEx j
    let coorCJ := cj.colOfEx j
    forDownO m 1 (fun i c2 =>
      let coorAI := a.colOfEx i
      let t1re := al.re * b.r (coorBJ + i) - al.im * b.i (coorBJ + i)
      let t1im := al.re * b.i (coorBJ + i) - al.im * b.r (coorBJ + i)
      match iterBad m (csymmLLk a b coorAI coorBJ coorCJ t1re t1im) fuel (i + 1)
          (c2, (0 : ℚ), (0 : ℚ)) with
      | none => none
      | some st =>
        let c5 := st.1
        let re0 := (t1re * a.r (coorAI + i) - t1im * a.i (coorAI + i))
                   + (al.re * st.2.1 - al.im * st.2.2)
        let im0 := (t1re * a.i (coorAI + i) + t1re * a.r (coorAI + i))
                   + (al.re * st.2.2 + al.im * st.2.1)
        let re1 := if betaIsZero then re0
                   else re0 + (be.re * c5.r (coorCJ + i) - be.im * c5.i (coorCJ + i))
        let im1 := if betaIsZero then im0
                   else im0 + (be.re * c5.i (coorCJ + i) + be.im * c5.r (coorCJ + i))
        some { c5 with
          r := updFn c5.r (coorCJ + i) re1,
          i := updFn c5.i (coorCJ + i) im1 }) cj) c0

/-- Engine branch of `csymm` for side = right (source lines 191-247): forms
C := alpha*B*A + beta*C.  Keeps the source's use of C's column offset
(`coorCJ`) when reading A's diagonal element. -/
def csymmR (al be : Cpx) (betaIsZero upper : Bool) (a b : CDat) (m n : ℤ)
    (c0 : CDat) : CDat :=
  forUp 1 n (fun j c1 =>
    let coorAJ := a.colOfEx j
    let coorBJ := b.colOfEx j
    let coorCJ := c1.colOfEx j
    let t1re := al.re * a.r (coorCJ + j) - al.im * a.i (coorCJ + j)
    let t1im := al.re * a.i (coorCJ + j) + al.im * a.r (coorCJ + j)
    let c2 := forUp 1 m (fun i cc =>
      let re0 := t1re * b.r (coorBJ + i) - t1im * b.i (coorBJ + i)
      let im0 := t1re * b.i (coorBJ + i) + t1im * b.r (coorBJ + i)
      let re1 := if betaIsZero then re0
                 else re0 + (be.re * cc.r (coorCJ + i) - be.im * cc.i (coorCJ + i))
      let im1 := if betaIsZero then im0
                 else im0 + (be.re * cc.i (coorCJ + i) + be.im * cc.r (coorCJ + i))
      { cc with r := updFn cc.r (coorCJ + i) re1, i := updFn cc.i (coorCJ + i) im1 }) c1
    let c3 := forUp 1 (j - 1) (fun k cc =>
      let coorAK := a.colOfEx k
      let coorBK := b.colOfEx k
      let aRe := if upper then a.r (coorAJ + k) else a.r (coorAK + j)
      let aIm := if upper then a.i (coorAJ + k) else a.i (coorAK + j)
      let s1re := al.re * aRe - al.im * aIm
      let s1im := al.re * aIm + al.im * aRe
      forUp 1 m (fun i c4 =>
        { c4 with
          r := updFn c4.r (coorCJ + i)
            (c4.r (coorCJ + i) + (s1re * b.r (coorBK + i) - s1im * b.i (coorBK + i))),
          i := updFn c4.i (coorCJ + i)
            (c4.i (coorCJ + i) + (s1re * b.i (coorBK + i) + s1im * b.r (coorBK + i))) }) cc)
      c2
    forUp (j + 1) n (fun k cc =>
      let coorAK := a.colOfEx k
      let coorBK := b.colOfEx k
      let aRe := if upper then a.r (coorAK + j) else a.r (coorAJ + k)
      let aIm := if upper then a.i (coorAK + j) else a.i (coorAJ + k)
      let s1re := al.re * aRe - al.im * aIm
      let s1im := al.re * aIm + al.im * aRe
      forUp 1 m (fun i c4 =>
        { c4 with
          r := updFn c4.r (coorCJ + i)
            (c4.r (coorCJ + i) + (s1re * b.r (coorBK + i) - s1im * b.i (coorBK + i))),
          i := updFn c4.i (coorCJ + i)
            (c4.i (coorCJ + i) + (s1re * b.i (coorBK + i) + s1im * b.r (coorBK + i))) }) cc)
      c3) c0

/-- Result of a `csymm` call: the error thrown, if any, and the final state of
the C matrix (unchanged when an error is thrown, since every write happens
after all checks). -/
structure CRes where
  err : Option BlasErr
  cOut : CMat

/-- Repackage a checked complex matrix as a plain matrix view. -/
def CDat.toCMat (d : CDat) : CMat := ⟨d.r, some d.i, d.ld⟩

/-- The `csymm` routine (source lines 27-248).  `fuel` bounds the iterations
of the left/not-upper k-loop; `none` means that loop had not finished when the
fuel ran out (it never finishes once entered with `k >= m`). -/
def csymm (fuel : Nat) (side uplo : Char) (m n : ℤ) (alpha : Cpx) (a : CMat)
    (lda : ℤ) (b : CMat) (ldb : ℤ) (beta : Cpx) (c : CMat) (ldc : ℤ) :
    Option CRes :=
  match a.i with
  | none => some ⟨some (BlasErr.missingIm "a.i"), c⟩
  | some ai =>
    match b.i with
    | none => some ⟨some (BlasErr.missingIm "b.i"), c⟩
    | some bi =>
      match c.i with
      | none => some ⟨some (BlasErr.missingIm "c.i"), c⟩
      | some ci =>
        let ad : CDat := ⟨a.r, ai, a.ld⟩
        let bd : CDat := ⟨b.r, bi, b.ld⟩
        let cd : CDat := ⟨c.r, ci, c.ld⟩
        let si := lowerChar side
        let ul := lowerChar uplo
        let nrowA := if si == 'l' then m else n
        let upper : Bool := ul == 'u'
        let info : ℤ :=
          if !(si == 'l' || si == 'r') then 1
          else if (ul == 'u' || ul == 'l') then 2
          else if m < 0 then 3
          else if n < 0 then 4
          else if lda < max 1 nrowA then 7
          else if ldb < max 1 m then 9
          else if ldc < max 1 m then 12
          else 0
        if info ≠ 0 then some ⟨some (BlasErr.wrongArg "csymm" info), c⟩
        else
          let alphaIsZero : Bool := alpha.re == 0 && alpha.im == 0
          let betaIsOne : Bool := beta.re == 1 && beta.im == 0
          let betaIsZero : Bool := beta.re == 0 && beta.im == 0
          if m == 0 || n == 0 || (alphaIsZero && betaIsOne) then some ⟨none, c⟩
          else if alphaIsZero then
            if !betaIsZero then
              some ⟨none, (forUp 1 n (fun j (cc : CDat) => cc.setCol j 1 m 0) cd).toCMat⟩
            else
              some ⟨none, (forUp 1 n (fun j (cc : CDat) =>
                let coorCJ := cc.colOfEx j
                forUp 1 m (fun i (c2 : CDat) =>
                  let re0 := beta.re * c2.r (coorCJ + i) - beta.im * c2.i (coorCJ + i)
                  let im0 := beta.re * c2.i (coorCJ + i) + beta.im * c2.r (coorCJ + i)
                  { c2 with
                    r := updFn c2.r (coorCJ + i) re0,
                    i := updFn c2.i (coorCJ + i) im0 }) cc) cd).toCMat⟩
          else if si == 'l' then
            if upper then some ⟨none, (csymmLU alpha beta betaIsZero ad bd m n cd).toCMat⟩
            else
              match csymmLL fuel alpha beta betaIsZero ad bd m n cd with
              | none => none
              | some d => some ⟨none, d.toCMat⟩
          else some ⟨none, (csymmR alpha beta betaIsZero upper ad bd m n cd).toCMat⟩

/-- Result of an `ssymm` call: the error thrown, if any, and the final state
of the C matrix. -/
structure RRes where
  err : Option BlasErr
  cOut : RMat

/-- The `ssymm` routine (source lines 275-434).  All of its loops have
strictly decreasing bounds, so it is a total function.  The left/not-upper
branch keeps the source's slip of computing C's column offset from the B
matrix (`coorCJ = b.colOfEx(j)`). -/
def ssymm (side uplo : Char) (m n : ℤ) (alpha : ℚ) (a : RMat) (lda : ℤ)
    (b : RMat) (ldb : ℤ) (beta : ℚ) (c : RMat) (ldc : ℤ) : RRes :=
  let si := lowerChar side
  let ul := lowerChar uplo
  let nrowA := if si == 'l' then m else n
  let info : ℤ :=
    if !(si == 'l') && !(si == 'r') then 1
    else if !(ul == 'u') && !(ul == 'l') then 2
    else if m < 0 then 3
    else if n < 0 then 4
    else if lda < max 1 nrowA then 7
    else if ldb < max 1 m then 9
    else if ldc < max 1 m then 12
    else 0
  if info ≠ 0 then ⟨some (BlasErr.wrongArg "ssymm" info), c⟩
  else if m == 0 || n == 0 || (alpha == 0 && beta == 1) then ⟨none, c⟩
  else if alpha == 0 then
    if beta == 0 then
      ⟨none, forUp 1 n (fun j (cc : RMat) => cc.setCol j 1 m 0) c⟩
    else
      ⟨none, forUp 1 n (fun j (cc : RMat) =>
        let coords := cc.colOfEx j
        forUp 1 m (fun i (c2 : RMat) =>
          { c2 with r := updFn c2.r (coords + i) (c2.r (coords + i) * beta) }) cc) c⟩
  else if si == 'l' then
    if ul == 'u' then
      ⟨none, forUp 1 n (fun j cj =>
        let coorBJ := b.colOfEx j
        let coorCJ := cj.colOfEx j
        forUp 1 m (fun i c2 =>
          let coorAI := a.colOfEx i
          let temp1 := alpha * b.r (coorBJ + i)
          let st := forUp 1 (i - 1) (fun k (p : RMat × ℚ) =>
            let cv := p.1.r (coorCJ + k) + temp1 * a.r (coorAI + k)
            ({ p.1 with r := updFn p.1.r (coorCJ + k) cv },
             p.2 + b.r (coorBJ + k) * a.r (coorAI + k))) (c2, (0 : ℚ))
          let c5 := st.1
          let re0 := temp1 * a.r (coorAI + i) + alpha * st.2
          let re1 := if beta ≠ 0 then re0 + beta * c5.r (coorCJ + i) else re0
          { c5 with r := updFn c5.r (coorCJ + i) re1 }) cj) c⟩
    else
      ⟨none, forUp 1 n (fun j cj =>
        let coorBJ := b.colOfEx j
        let coorCJ := b.colOfEx j
        forDown m 1 (fun i c2 =>
          let coorAI := a.colOfEx i
          let temp1 := alpha * b.r (coorBJ + i)
          let st := forUp (i + 1) m (fun k (p : RMat × ℚ) =>
            let cv := p.1.r (coorCJ + k) + temp1 * a.r (coorAI + k)
            ({ p.1 with r := updFn p.1.r (coorCJ + k) cv },
             p.2 + b.r (coorBJ + k) * a.r (coorAI + k))) (c2, (0 : ℚ))
          let c5 := st.1
          let re0 := temp1 * a.r (coorAI + i) + alpha * st.2
          let re1 := if beta ≠ 0 then re0 + beta * c5.r (coorCJ + i) else re0
          { c5 with r := updFn c5.r (coorCJ + i) re1 }) cj) c⟩
  else
    ⟨none, forUp 1 n (fun j cj =>
      let coorAJ := a.colOfEx j
      let coorCJ := cj.colOfEx j
      let coorBJ := b.colOfEx j
      let temp1 := alpha * a.r (coorAJ + j)
      let c2 :=
        if beta == 0 then
          forUp 1 m (fun i (cc : RMat) =>
            { cc with r := updFn cc.r (coorCJ + i) (temp1 * b.r (coorBJ + i)) }) cj
        else
          forUp 1 m (fun i (cc : RMat) =>
            let cv := beta * cc.r (coorCJ + i) + temp1 * b.r (coorBJ + i)
            { cc with r := updFn cc.r (coorCJ + i) cv }) cj
      let c3 := forUp 1 (j - 1) (fun k cc =>
        let coorAK := a.colOfEx k
        let coorBK := b.colOfEx k
        let s1 := alpha * (if ul == 'u' then a.r (coorAJ + k) else a.r (coorAK + j))
        forUp 1 m (fun i (c4 : RMat) =>
          let cv := c4.r (coorCJ + i) + s1 * b.r (coorBK + i)
          { c4 with r := updFn c4.r (coorCJ + i) cv }) cc) c2
      forUp (j + 1) n (fun k cc =>
        let coorAK := a.colOfEx k
        let coorBK := b.colOfEx k
        let s1 := alpha * (if ul == 'u' then a.r (coorAK + j) else a.r (coorAJ + k))
        forUp 1 m (fun i (c4 : RMat) =>
          let cv := c4.r (coorCJ + i) + s1 * b.r (coorBK + i)
          { c4 with r := updFn c4.r (coorCJ + i) cv }) cc) c3) c⟩

/-- Finite association buffer: listed offsets hold the given value, all other
offsets hold 0. -/
def mkBuf (l : List (ℤ × ℚ)) : ℤ → ℚ :=
  fun t => ((l.find? (fun p => p.1 == t)).map Prod.snd).getD 0

/-- The all-zero buffer. -/
def zeroBuf : ℤ → ℚ := fun _ => 0

/-- Once the condition `k >= m` of the source loop holds, it holds at every
later step because `k` only grows, so the fueled loop returns `none` for every
fuel value. -/
theorem iterBad_eq_none {σ : Type} (m : ℤ) (body : ℤ → σ → σ) :
    ∀ (fuel : Nat) (k : ℤ) (s : σ), m ≤ k → iterBad m body fuel k s = none := by
  intro fuel
  induction fuel with
  | zero =>
    intro k s h
    simp [iterBad, h]
  | succ f ih =>
    intro k s h
    simp only [iterBad, if_pos h]
    exact ih (k + 1) (body k s) (by omega)

/-- C1: the claim says every validated `csymm`/`ssymm` call terminates, and in
particular that the left-side lower-triangle engine branch terminates for all
m ≥ 1, n ≥ 1.  The code's branch (`csymmLL`, source lines 157-188) instead
never finishes: its k-loop runs `for (k = i+1; k >= m; k++)`, and at the first
row i = m the condition m+1 ≥ m already holds and holds forever, so for every
fuel bound the branch is still running.  This refutes the termination claim
for the complex variant. -/
theorem claim_C1_left_lower_loop_diverges (fuel : Nat) (al be : Cpx) (bz : Bool)
    (a b : CDat) (m n : ℤ) (c : CDat) (hm : 1 ≤ m) (hn : 1 ≤ n) :
    csymmLL fuel al be bz a b m n c = none := by
  obtain ⟨t, ht⟩ : ∃ t, n.toNat = t + 1 := ⟨n.toNat - 1, by omega⟩
  obtain ⟨u, hu⟩ : ∃ u, m.toNat = u + 1 := ⟨m.toNat - 1, by omega⟩
  have hn1 : (n + 1 - 1 : ℤ) = n := by ring
  have hm1 : (m + 1 - 1 : ℤ) = m := by ring
  unfold csymmLL forUpO
  rw [hn1, ht]
  simp only [iterUpO]
  unfold forDownO
  rw [hm1, hu]
  simp only [iterDownO]
  rw [iterBad_eq_none m _ fuel (m + 1) _ (by omega)]

/-- Witness for C1 at fuel 7, m = n = 1, on concrete all-zero matrices. -/
theorem claim_C1_witness :
    (1 : ℤ) ≤ 1 ∧
      csymmLL 7 ⟨1, 0⟩ ⟨1, 0⟩ false ⟨zeroBuf, zeroBuf, 1⟩ ⟨zeroBuf, zeroBuf, 1⟩ 1 1
        ⟨zeroBuf, zeroBuf, 1⟩ = none :=
  ⟨by norm_num,
   claim_C1_left_lower_loop_diverges 7 ⟨1, 0⟩ ⟨1, 0⟩ false ⟨zeroBuf, zeroBuf, 1⟩
     ⟨zeroBuf, zeroBuf, 1⟩ 1 1 ⟨zeroBuf, zeroBuf, 1⟩ (by norm_num) (by norm_num)⟩

/-- 1×1 complex symmetric matrix A = (5, 2). -/
def cA11 : CMat := ⟨mkBuf [(1, 5)], some (mkBuf [(1, 2)]), 1⟩

/-- 1×1 complex matrix B = (1, 1). -/
def cB11 : CMat := ⟨mkBuf [(1, 1)], some (mkBuf [(1, 1)]), 1⟩

/-- 1×1 complex matrix C = (0, 0). -/
def cC11 : CMat := ⟨zeroBuf, some zeroBuf, 1⟩

/-- 1×1 complex matrix C = (1, 0). -/
def cC11a : CMat := ⟨mkBuf [(1, 1)], some zeroBuf, 1⟩

/-- 1×1 complex matrix C = (2, 0). -/
def cC11b : CMat := ⟨mkBuf [(1, 2)], some zeroBuf, 1⟩

/-- 1×1 complex matrix C = (5, 0). -/
def cC11five : CMat := ⟨mkBuf [(1, 5)], some zeroBuf, 1⟩

/-- C2: the claim says `csymm` raises failure code 2 iff the triangle selector
is invalid.  In the code the check is inverted (`'ul'.includes(ul)` without
negation, source line 66): triangle = 'u' with valid side and dimensions
throws wrongArg 2, while the invalid triangle 'x' sails through validation and
the call completes without any error.  (`ssymm`, source line 301, checks
correctly.) -/
theorem claim_C2_triangle_check_inverted :
    csymm 0 'l' 'u' 1 1 ⟨1, 0⟩ cA11 1 cB11 1 ⟨1, 0⟩ cC11 1 =
      some ⟨some (BlasErr.wrongArg "csymm" 2), cC11⟩ ∧
    (csymm 0 'r' 'x' 1 1 ⟨1, 0⟩ cA11 1 cB11 1 ⟨1, 0⟩ cC11 1).map (fun r => r.err) =
      some none :=
  ⟨rfl, rfl⟩

/-- C3: the claim says a valid α = 0, β = 0 call zeroes C's active region, and
α = 0 with β ∉ {0,1} scales C by β.  In `csymm` the valid call never reaches
the fast path (inverted triangle check throws wrongArg 2), and the two α = 0
branches are swapped (source lines 97-113): with the invalid triangle 'x'
reaching the fast path, β = 2 zeroes C(1,1) = 5 to 0 instead of scaling it
to 10. -/
theorem claim_C3_alpha_zero_fast_path_broken :
    csymm 0 'l' 'u' 1 1 ⟨0, 0⟩ cA11 1 cB11 1 ⟨0, 0⟩ cC11five 1 =
      some ⟨some (BlasErr.wrongArg "csymm" 2), cC11five⟩ ∧
    (csymm 0 'l' 'x' 1 1 ⟨0, 0⟩ cA11 1 cB11 1 ⟨2, 0⟩ cC11five 1).map
      (fun r => (r.err, r.cOut.r 1)) = some (none, 0) :=
  ⟨rfl, rfl⟩

/-- C4: the claim's concrete complex scenario (m = n = 1, side left, triangle
upper, α = (1,0), β = (0,0), A = (5,2), B = (1,1)) should return normally
with C(1,1) = (3,7).  The code instead throws wrongArg 2 at validation
(inverted triangle check) and C stays at its initial (0,0). -/
theorem claim_C4_complex_scenario_throws :
    csymm 0 'l' 'u' 1 1 ⟨1, 0⟩ cA11 1 cB11 1 ⟨0, 0⟩ cC11 1 =
      some ⟨some (BlasErr.wrongArg "csymm" 2), cC11⟩ ∧
    cC11.r 1 = 0 :=
  ⟨rfl, rfl⟩

/-- 2×2 real matrix A with upper triangle [[2,3],[_,4]]; the unreferenced
lower slot holds the garbage value 99. -/
def aS5 : RMat := ⟨mkBuf [(1, 2), (3, 3), (4, 4), (2, 99)], 2⟩

/-- 2×2 real identity matrix B. -/
def bS5 : RMat := ⟨mkBuf [(1, 1), (4, 1)], 2⟩

/-- 2×2 real matrix C with arbitrary initial contents (β = 0 must ignore
them). -/
def cS5 : RMat := ⟨mkBuf [(1, 50), (2, 60), (3, 70), (4, 80)], 2⟩

/-- C5: the claim's concrete real scenario holds: `ssymm` with m = n = 2, side
left, triangle upper, α = 1, β = 0, upper-stored A = [[2,3],[_,4]] and B the
identity returns normally and produces C exactly [[2,3],[3,4]], regardless of
C's initial contents and of the garbage in A's unreferenced lower slot. -/
theorem claim_C5_real_scenario_identity :
    (ssymm 'l' 'u' 2 2 1 aS5 2 bS5 2 0 cS5 2).err = none ∧
    (ssymm 'l' 'u' 2 2 1 aS5 2 bS5 2 0 cS5 2).cOut.r 1 = 2 ∧
    (ssymm 'l' 'u' 2 2 1 aS5 2 bS5 2 0 cS5 2).cOut.r 2 = 3 ∧
    (ssymm 'l' 'u' 2 2 1 aS5 2 bS5 2 0 cS5 2).cOut.r 3 = 3 ∧
    (ssymm 'l' 'u' 2 2 1 aS5 2 bS5 2 0 cS5 2).cOut.r 4 = 4 := by
  simp [ssymm, forUp, iterUp, forDown, iterDown, lowerChar, mkBuf, updFn, zeroBuf,
    RMat.colOfEx, RMat.setCol, Char.toLower, List.find?, aS5, bS5, cS5]

/-- 1×1 real symmetric matrix A = [2]; its upper and lower storages coincide. -/
def aS6 : RMat := ⟨mkBuf [(1, 2)], 1⟩

/-- 1×2 real matrix B = [1 1] stored with leading dimension 3. -/
def bS6 : RMat := ⟨mkBuf [(1, 1), (4, 1)], 3⟩

/-- 1×2 real matrix C, initially zero, leading dimension 1. -/
def cS6 : RMat := ⟨zeroBuf, 1⟩

/-- C6: the claim says triangle = upper with one storage and triangle = lower
with the mirrored storage give identical final C.  For a 1×1 A the two
storages are literally the same buffer, yet with ldb = 3 ≠ ldc = 1 the
`ssymm` lower branch (source line 374) computes C's column offset from B
(`coorCJ = b.colOfEx(j)`), so the upper run stores C(1,2) = 2 at offset 2
while the lower run leaves offset 2 untouched at 0: the two final Cs
differ. -/
theorem claim_C6_triangle_storage_not_oblivious :
    (ssymm 'l' 'u' 1 2 1 aS6 1 bS6 3 0 cS6 1).err = none ∧
    (ssymm 'l' 'l' 1 2 1 aS6 1 bS6 3 0 cS6 1).err = none ∧
    (ssymm 'l' 'u' 1 2 1 aS6 1 bS6 3 0 cS6 1).cOut.r 2 = 2 ∧
    (ssymm 'l' 'l' 1 2 1 aS6 1 bS6 3 0 cS6 1).cOut.r 2 = 0 := by
  simp [ssymm, forUp, iterUp, forDown, iterDown, lowerChar, mkBuf, updFn, zeroBuf,
    RMat.colOfEx, RMat.setCol, Char.toLower, List.find?, aS6, bS6, cS6]

/-- C7: the claim says that with β = 0 the final active region of C is
independent of C's contents on entry.  For `csymm`, every call with a valid
triangle selector throws wrongArg 2 (inverted check) before any write, so two
β = 0 runs that differ only in the initial C end with final C(1,1) = 1 and 2
respectively — the final contents track the entry contents. -/
theorem claim_C7_beta_zero_reads_entry_state :
    (csymm 0 'l' 'u' 1 1 ⟨1, 0⟩ cA11 1 cB11 1 ⟨0, 0⟩ cC11a 1).map
      (fun r => (r.err, r.cOut.r 1)) = some (some (BlasErr.wrongArg "csymm" 2), 1) ∧
    (csymm 0 'l' 'u' 1 1 ⟨1, 0⟩ cA11 1 cB11 1 ⟨0, 0⟩ cC11b 1).map
      (fun r => (r.err, r.cOut.r 1)) = some (some (BlasErr.wrongArg "csymm" 2), 2) :=
  ⟨rfl, rfl⟩

/-- C8: the claim says α = 0, β = 1 is an immediate no-op return for both
variants.  `ssymm` indeed returns C untouched, but the same `csymm` call
throws wrongArg 2 at validation (inverted triangle check) and never reaches
the quick-return. -/
theorem claim_C8_zero_short_circuit_throws :
    csymm 0 'l' 'u' 1 1 ⟨0, 0⟩ cA11 1 cB11 1 ⟨1, 0⟩ cC11 1 =
      some ⟨some (BlasErr.wrongArg "csymm" 2), cC11⟩ ∧
    ssymm 'l' 'u' 1 1 0 aS6 1 bS6 3 1 cS6 1 = ⟨none, cS6⟩ :=
  ⟨rfl, rfl⟩

/-- 2×2 complex symmetric A (side = right, n = 2), lda = 2: A(2,2) = 7 sits at
offset 4; offset 3 (= C's column offset for column 2, plus row 2) holds the
marker 9. -/
def cA9 : CMat := ⟨mkBuf [(4, 7), (3, 9)], some zeroBuf, 2⟩

/-- 1×2 complex B with B(1,2) = 1, ldb = 1. -/
def cB9 : CMat := ⟨mkBuf [(2, 1)], some zeroBuf, 1⟩

/-- 1×2 complex C, initially zero, ldc = 1. -/
def cC9 : CMat := ⟨zeroBuf, some zeroBuf, 1⟩

/-- 2×2 real A for the same scenario. -/
def aS9 : RMat := ⟨mkBuf [(4, 7), (3, 9)], 2⟩

/-- 1×2 real B with B(1,2) = 1. -/
def bS9 : RMat := ⟨mkBuf [(2, 1)], 1⟩

/-- 1×2 real C, initially zero. -/
def cS9 : RMat := ⟨zeroBuf, 1⟩

/-- C9: the claim says the right-side seeding reads temp1 = α·A(j,j) from A's
own column offset, regardless of leading dimensions.  `csymm` (source line
198) instead indexes A with C's column offset (`a.r[coorCJ + j]`): with
lda = 2, ldc = 1 the j = 2 seeding reads offset 3 (marker 9) instead of A's
diagonal slot offset 4 (value 7), so C(1,2) becomes 9.  `ssymm` (source line
402) reads the correct offset and produces 7. -/
theorem claim_C9_right_diagonal_wrong_offset :
    (csymm 0 'r' 'x' 1 2 ⟨1, 0⟩ cA9 2 cB9 1 ⟨0, 0⟩ cC9 1).map
      (fun r => (r.err, r.cOut.r 2)) = some (none, 9) ∧
    cA9.r (cA9.colOfEx 2 + 2) = 7 ∧
    (ssymm 'r' 'u' 1 2 1 aS9 2 bS9 1 0 cS9 1).err = none ∧
    (ssymm 'r' 'u' 1 2 1 aS9 2 bS9 1 0 cS9 1).cOut.r 2 = 7 := by
  refine ⟨?_, by simp [cA9, CMat.colOfEx, mkBuf], ?_, ?_⟩ <;>
    simp [csymm, csymmR, ssymm, forUp, iterUp, forDown, iterDown, lowerChar, mkBuf,
      updFn, zeroBuf, RMat.colOfEx, CMat.colOfEx, CDat.colOfEx, CDat.toCMat,
      Char.toLower, List.find?, Option.map, cA9, cB9, cC9, aS9, bS9, cS9]

/-- C10: in the complex variant the missing-imaginary-buffer checks on A, B
and C run before any argument validation and before any write to C: whenever
at least one of A, B, C lacks an imaginary buffer, `csymm` throws the
missing-imaginary error naming the first missing buffer in the order A, B, C
— even if the side or triangle selector is invalid or the dimensions are
negative — and the C matrix is returned exactly as passed. -/
theorem claim_C10_missing_im_precedes_validation (fuel : Nat) (side uplo : Char)
    (m n : ℤ) (alpha beta : Cpx) (a b c : CMat) (lda ldb ldc : ℤ)
    (h : a.i.isNone ∨ b.i.isNone ∨ c.i.isNone) :
    csymm fuel side uplo m n alpha a lda b ldb beta c ldc =
      some ⟨some (BlasErr.missingIm
        (if a.i.isNone then "a.i" else if b.i.isNone then "b.i" else "c.i")), c⟩ := by
  cases ha : a.i with
  | none => simp [csymm, ha]
  | some av =>
    cases hb : b.i with
    | none => simp [csymm, ha, hb]
    | some bv =>
      cases hc : c.i with
      | none => simp [csymm, ha, hb, hc]
      | some cv => simp [ha, hb, hc] at h

/-- A complex matrix view presented without an imaginary buffer. -/
def cMiss : CMat := ⟨zeroBuf, none, 1⟩

/-- Witness for C10: a call with A lacking its imaginary buffer, an invalid
side, an invalid triangle and a negative m still throws the
missing-imaginary error for "a.i" with C unchanged. -/
theorem claim_C10_witness :
    csymm 0 'q' 'z' (-5) 1 ⟨1, 0⟩ cMiss 1 cB11 1 ⟨1, 0⟩ cC11 1 =
      some ⟨some (BlasErr.missingIm "a.i"), cC11⟩ :=
  claim_C10_missing_im_precedes_validation 0 'q' 'z' (-5) 1 ⟨1, 0⟩ ⟨1, 0⟩ cMiss cB11
    cC11 1 1 1 (Or.inl rfl)
